import Mathlib

/-!
Shallow embedding of the awg-utils repository (webern-unibas-ch/awg-utils).

The repository has two tools:
  * src/compare_pdfs/compare_pdfs.py - a PDF visual diff tool;
  * src/convert_source_description/ - a Word-to-JSON converter for
    musicological source descriptions, in two historical variants:
    the module-level helpers of src/convert_source_description/utils.py
    (namespace Utils below) and the richer class
    ConversionUtilsHelper of src/convert_source_description/utils_helper.py
    (namespace Helper below).

Modelling conventions:
  * Text is represented as List Char (abbrev Str).  A BeautifulSoup
    paragraph Tag is represented by its serialized markup string
    (what str(para) returns in Python), e.g. "<p><strong>A</strong></p>".
    Derived views (para.text, get_text(strip=True), find of a tag or of a
    string) are computed from the markup: the text nodes of a markup string
    are the maximal runs of characters outside angle-bracket tags.
  * para.next_sibling chains are modelled by pairing a paragraph with the
    list of the paragraphs that follow it in the document
    (ParaT := Para × List Para); the end of the chain models a None sibling.
  * Python exceptions are modelled with Except PyErr; the PyErr
    constructor records which kind of exception the interpreter raises
    (IndexError, AttributeError on None, UnboundLocalError).
  * Bounded string recursions (str.split, str.replace) use an explicit
    fuel argument so every definition is structurally recursive and
    kernel-computable; the wrappers pass fuel that is provably sufficient
    (one unit per consumed character).
-/

abbrev Str := List Char

/-- The kinds of Python exceptions the embedded code can raise. -/
inductive PyErr where
  | indexError
  | attrError
  | unboundLocal
  deriving DecidableEq, Repr

/-- Characters treated as whitespace by Python str.strip() and by the
regex class backslash-s (ASCII whitespace plus the no-break space, the
only non-ASCII whitespace occurring in the repository's data). -/
def pySpace (c : Char) : Bool :=
  c = ' ' || c = '\t' || c = '\n' || c = '\r' || c = '\x0b' || c = '\x0c' || c = '\xa0'

/-- Python str.strip(): drop leading and trailing whitespace. -/
def pyStrip (s : Str) : Str :=
  ((s.dropWhile pySpace).reverse.dropWhile pySpace).reverse

/-- Python str.rstrip(chars): drop trailing characters that are in the set. -/
def pyRstripSet (set : List Char) (s : Str) : Str :=
  (s.reverse.dropWhile (fun c => set.contains c)).reverse

/-- Python str.lstrip(chars): drop leading characters that are in the set. -/
def pyLstripSet (set : List Char) (s : Str) : Str :=
  s.dropWhile (fun c => set.contains c)

/-- Index of the first occurrence of needle in hay (Python str.find,
with none standing for -1).  An empty needle matches at index 0. -/
def firstIdx (needle : Str) : Str → Option Nat
  | [] => if needle.isEmpty then some 0 else none
  | c :: rest =>
    if needle.isPrefixOf (c :: rest) then some 0
    else (firstIdx needle rest).map (· + 1)

/-- Python substring containment (the in operator on str). -/
def containsSub (needle hay : Str) : Bool :=
  (firstIdx needle hay).isSome

/-- Truthiness of Python str.find(needle): find returns -1 when absent
(truthy) and the match index otherwise, so the result is falsy exactly
when the needle occurs at index 0. -/
def pyFindTruthy (hay needle : Str) : Bool :=
  match firstIdx needle hay with
  | none => true
  | some i => i ≠ 0

/-- Fuel-driven worker for Python str.split(sep) with a non-empty
separator: split at every non-overlapping occurrence, left to right.
Each step consumes at least one character, so fuel s.length + 1 is
always sufficient. -/
def pySplitF (d : Str) : Nat → Str → Str → List Str
  | 0, s, cur => [cur.reverse ++ s]
  | _ + 1, [], cur => [cur.reverse]
  | fuel + 1, c :: rest, cur =>
    if d.isPrefixOf (c :: rest) && !d.isEmpty then
      cur.reverse :: pySplitF d fuel (rest.drop (d.length - 1)) []
    else
      pySplitF d fuel rest (c :: cur)

/-- Python str.split(sep) for the non-empty separators used in the code. -/
def pySplit (d s : Str) : List Str :=
  pySplitF d (s.length + 1) s []

/-- Fuel-driven worker for Python str.replace(old, new) with non-empty
old: replace every non-overlapping occurrence, left to right. -/
def pyReplaceF (old new : Str) : Nat → Str → Str
  | 0, s => s
  | _ + 1, [] => []
  | fuel + 1, c :: rest =>
    if old.isPrefixOf (c :: rest) && !old.isEmpty then
      new ++ pyReplaceF old new fuel (rest.drop (old.length - 1))
    else
      c :: pyReplaceF old new fuel rest

/-- Python str.replace(old, new) for the non-empty patterns used in the code. -/
def pyReplace (s old new : Str) : Str :=
  pyReplaceF old new (s.length + 1) s

/-- Python str.removeprefix. -/
def pyRemovePrefix (s p : Str) : Str :=
  if p.isPrefixOf s then s.drop p.length else s

/-- Python str.removesuffix. -/
def pyRemoveSuffix (s p : Str) : Str :=
  if p.isSuffixOf s then s.take (s.length - p.length) else s

/-- Python str.endswith. -/
def pyEndsWith (s suffix : Str) : Bool :=
  suffix.isSuffixOf s

/-- Python str.startswith. -/
def pyStartsWith (s p : Str) : Bool :=
  p.isPrefixOf s

/-- Python str.lower for the ASCII data of the repository. -/
def pyLower (s : Str) : Str :=
  s.map Char.toLower

/-- Concatenation of a list of strings (Python str.join with empty joiner). -/
def joinL (l : List Str) : Str :=
  l.foldr (· ++ ·) []

/-- String literal helper: the Lean string as a character list. -/
def str (s : String) : Str :=
  s.toList

example : str "ab" = ['a', 'b'] := rfl
example : pySplit (str ";") (str "a;b; c") = [str "a", str "b", str " c"] := by decide
example : pyReplace (str "M 22.") (str ".") (str "_") = str "M 22_" := by decide
example : pyStrip (str "  a b\xa0 ") = str "a b" := by decide
example : firstIdx (str "l:") (str "Titel: x") = some 4 := by decide
example : pyFindTruthy (str "strong x") (str "strong") = false := by decide
example : pyFindTruthy (str "x") (str "strong") = true := by decide

/-!
The paragraph model: a paragraph is the serialized markup of its
BeautifulSoup Tag.  The text nodes of a markup string are the maximal
runs of characters outside angle brackets.
-/

/-- A paragraph, represented by its serialized markup (str(para)). -/
abbrev Para := Str

/-- A paragraph together with its following siblings in the document
(para.next_sibling chain); the end of the list models a None sibling. -/
abbrev ParaT := Para × List Para

/-- Worker for textSegs: split a markup string into its text nodes.
The Bool argument is true while scanning inside an angle-bracket tag. -/
def textSegsAux : List Char → Bool → Str → List Str
  | [], _, cur => [cur.reverse]
  | c :: rest, true, cur =>
    if c = '>' then textSegsAux rest false cur else textSegsAux rest true cur
  | c :: rest, false, cur =>
    if c = '<' then cur.reverse :: textSegsAux rest true []
    else textSegsAux rest false (c :: cur)

/-- The text nodes (NavigableStrings) of a markup string, in order. -/
def textSegs (m : Para) : List Str :=
  textSegsAux m false []

/-- BeautifulSoup .text / get_text(): concatenation of the text nodes. -/
def tagText (m : Para) : Str :=
  joinL (textSegs m)

/-- BeautifulSoup get_text(strip=True): concatenation of the
whitespace-stripped text nodes. -/
def tagTextStrip (m : Para) : Str :=
  joinL ((textSegs m).map pyStrip)

/-- Tag.find(string=re.compile(label)) for the literal labels of the
code: some text node contains the label as a substring. -/
def paraFindsString (label : Str) (m : Para) : Bool :=
  (textSegs m).any (fun seg => containsSub label seg)

/-- Tag.find of the strong tag: the markup contains an opening strong tag. -/
def paraHasStrong (m : Para) : Bool :=
  containsSub (str "<strong") m

/-- Tag.find of the sup tag: locate the first sup element and return its
inner markup together with the markup with that element removed
(what remains after Tag.extract()).  none models find returning None;
the markup of the repository's documents is well formed, so an opening
sup tag is always matched by a closing one. -/
def supSpan (m : Para) : Option (Str × Para) :=
  match firstIdx (str "<sup>") m with
  | none => none
  | some i =>
    match firstIdx (str "</sup>") (m.drop (i + 5)) with
    | none => none
    | some j =>
      some ((m.drop (i + 5)).take j, m.take i ++ (m.drop (i + 5)).drop (j + 6))

/-- ConversionUtils._strip_tag of src/convert_source_description/utils.py:
removeprefix of the plain opening tag, removesuffix of the closing tag,
then strip. -/
def stripTagU (m : Para) (tag : Str) : Str :=
  pyStrip (pyRemoveSuffix (pyRemovePrefix m ('<' :: tag ++ ['>'])) ('<' :: '/' :: tag ++ ['>']))

/-- ConversionUtilsHelper._strip_tag of utils_helper.py: locate the opening
tag by str.find (allowing attributes), cut everything up to and including
its closing angle bracket, removesuffix the closing tag, then strip.
When the opening tag is absent Python computes find(gt, -1), i.e. it looks
for a closing angle bracket in the last character only; both quirk branches
are reproduced. -/
def stripTagH (m : Para) (tag : Str) : Str :=
  match firstIdx ('<' :: tag) m with
  | none =>
    pyStrip (pyRemoveSuffix
      (m.drop (if m.getLast? = some '>' then m.length else 0))
      ('<' :: '/' :: tag ++ ['>']))
  | some i =>
    match firstIdx [ '>' ] (m.drop i) with
    | none => pyStrip (pyRemoveSuffix m ('<' :: '/' :: tag ++ ['>']))
    | some j =>
      pyStrip (pyRemoveSuffix (m.drop (i + j + 1)) ('<' :: '/' :: tag ++ ['>']))

/-- _strip_by_delimiter (identical in both modules): split by the
delimiter and strip every part. -/
def stripByDelimiter (s d : Str) : List Str :=
  (pySplit d s).map pyStrip

example : textSegs (str "<p><strong>A</strong></p>") = [[], [], str "A", [], []] := by decide
example : tagText (str "<p>Titel: x</p>") = str "Titel: x" := by decide
example : tagTextStrip (str "<p><strong> A </strong></p>") = str "A" := by decide
example : stripTagU (str "<p>Titel: x</p>") (str "p") = str "Titel: x" := by decide
example : stripTagH (str "<p>Titel: x</p>") (str "p") = str "Titel: x" := by decide
example : supSpan (str "<p><strong>A<sup>c</sup></strong></p>") =
    some (str "c", str "<p><strong>A</strong></p>") := by decide
example : stripByDelimiter (str "System 1: T. 1-2") (str ":") =
    [str "System 1", str "T. 1-2"] := by decide

/-!
Shared data structures and helper functions that are textually identical
in src/convert_source_description/utils.py and utils_helper.py.
-/

/-- Row (typed_classes): a twelve-tone row reference. -/
structure Row where
  rowType : Str
  rowBase : Str
  rowNumber : Str
  deriving DecidableEq, Repr

/-- System (typed_classes): row is the optional NotRequired key. -/
structure System where
  system : Str
  measure : Str
  linkTo : Str
  row : Option Row
  deriving DecidableEq, Repr

/-- Folio (typed_classes): isPage models the key the code inserts for
page references (none when the key is absent). -/
structure Folio where
  folio : Str
  isPage : Option Bool
  folioLinkTo : Str
  folioDescription : Str
  systemGroups : List (List System)
  deriving DecidableEq, Repr

/-- WritingInstruments (typed_classes). -/
structure WritingInstruments where
  main : Str
  secondary : List Str
  deriving DecidableEq, Repr

/-- _get_siglum (identical in both modules): extract the first sup tag of
the first paragraph (the addendum, its text stripped), remove it, and take
the stripped text of what remains as the siglum. -/
def get_siglum (p0 : Para) : Str × Str :=
  match supSpan p0 with
  | none => (tagTextStrip p0, [])
  | some (supInner, removed) => (tagTextStrip removed, tagTextStrip supInner)

/-- _find_siblings (identical in both modules): walk the next-sibling
chain, stop before a paragraph with a strong tag, stop after a paragraph
whose text ends with a period, otherwise keep collecting; falling off the
end of the chain calls find on a None sibling, an AttributeError. -/
def find_siblings : List Para → List Para → Except PyErr (List Para)
  | [], _ => .error .attrError
  | p :: rest, acc =>
    if paraHasStrong p then .ok acc
    else if pyEndsWith (tagText p) (str ".") then .ok (acc ++ [p])
    else find_siblings rest (acc ++ [p])

/-- _get_folio_label (identical in both modules), inner process_text:
lstrip tabs, remove the marker followed by a no-break space, strip,
remove the marker, strip. -/
def processFolioText (text marker : Str) : Str :=
  pyStrip (pyReplace (pyStrip (pyReplace (pyLstripSet [ '\t' ] text) (marker ++ [ '\xa0' ]) [])) marker [])

/-- _get_folio_label (identical in both modules): try the folio marker,
then the page marker (the page result overwrites the folio result). -/
def get_folio_label (t : Str) : Str :=
  let afterFolio := if containsSub (str "Bl.") t then processFolioText t (str "Bl.") else []
  if containsSub (str "S.") t then processFolioText t (str "S.") else afterFolio

/-- re.search("Bl.", text): the folio marker is used as an unescaped
regular expression, so the dot matches any character; the search succeeds
when the letters B and l are followed by at least one further character. -/
def searchBlAny : Str → Bool
  | 'B' :: 'l' :: _ :: _ => true
  | _ :: rest => searchBlAny rest
  | [] => false

/-!
The row pattern of _get_system_group:
([A-Z]{1,2})([a-z]{1,3})(\s[(](\d{1,2}|[I,V,X,L]{1,7})[)])?
embedded as a backtracking matcher with Python's leftmost match and
greedy quantifier order.
-/

/-- The characters of the regex class [I,V,X,L] (the comma is a member). -/
def isRomanClass (c : Char) : Bool :=
  c = 'I' || c = ',' || c = 'V' || c = 'X' || c = 'L'

/-- Take exactly n characters all satisfying p, returning them and the rest. -/
def takeCount (p : Char → Bool) (n : Nat) (s : Str) : Option (Str × Str) :=
  if (s.take n).length = n && (s.take n).all p then some (s.take n, s.drop n) else none

/-- The inner alternative of the optional group: one or two digits, or a
greedy run of up to seven [I,V,X,L] characters, followed by a closing
parenthesis.  Returns the captured group content. -/
def tryInnerNumber (s : Str) : Option Str :=
  match takeCount Char.isDigit 2 s with
  | some (ds, ')' :: _) => some ds
  | _ =>
    match takeCount Char.isDigit 1 s with
    | some (ds, ')' :: _) => some ds
    | _ =>
      let run := s.takeWhile isRomanClass
      let k := min run.length 7
      if k ≥ 1 && (s.drop k).head? = some ')' then some (s.take k) else none

/-- The optional group: a whitespace character, an opening parenthesis,
the inner number, a closing parenthesis. -/
def tryOptGroup : Str → Option Str
  | w :: '(' :: rest => if pySpace w then tryInnerNumber rest else none
  | _ => none

/-- One backtracking attempt at the current position with fixed counts of
uppercase (row type) and lowercase (row base) letters; the optional group
contributes the row number or the empty string. -/
def tryLetters (na nb : Nat) (s : Str) : Option Row :=
  match takeCount Char.isUpper na s with
  | none => none
  | some (ty, r1) =>
    match takeCount Char.isLower nb r1 with
    | none => none
    | some (ba, r2) => some ⟨ty, ba, (tryOptGroup r2).getD []⟩

/-- All attempts at one position, in Python's greedy backtracking order. -/
def tryRowAt (s : Str) : Option Row :=
  (tryLetters 2 3 s).orElse fun _ =>
  (tryLetters 2 2 s).orElse fun _ =>
  (tryLetters 2 1 s).orElse fun _ =>
  (tryLetters 1 3 s).orElse fun _ =>
  (tryLetters 1 2 s).orElse fun _ =>
  tryLetters 1 1 s

/-- re.search / re.findall(pattern)[0] for the row pattern: the groups of
the leftmost match, none when the pattern does not occur. -/
def rowSearch : Str → Option Row
  | [] => none
  | c :: rest => (tryRowAt (c :: rest)).orElse fun _ => rowSearch rest

/-- One iteration of the _get_system_group loop (identical in both
modules): segments holding the folio or page marker are skipped; a
segment with the System marker is split at the colon into the system
label and its value; without a value the system is dropped (continue
before the append); a value holding the measure marker T. yields a
measure label (lstrip of the T and dot characters, rstrip of dot and
semicolon, strip), otherwise the row pattern is searched in the value. -/
def systemOfSeg (seg : Str) : Option System :=
  if containsSub (str "Bl.") seg then none
  else if containsSub (str "S.") seg then none
  else if containsSub (str "System") seg then
    let parts := stripByDelimiter seg (str ":")
    let sysLabel := pyStrip (pyReplace (parts.headD []) (str "System") [])
    match parts.get? 1 with
    | none => none
    | some v =>
      if containsSub (str "T.") v then
        some ⟨sysLabel, pyStrip (pyRstripSet [ '.', ';' ] (pyLstripSet [ 'T', '.' ] v)), [], none⟩
      else
        some ⟨sysLabel, [], [], rowSearch v⟩
  else none

/-- _get_system_group (identical in both modules): one System per
qualifying segment, in order. -/
def get_system_group (spt : List Str) : List System :=
  spt.filterMap systemOfSeg

/-- _extract_writing_instruments (identical in both modules). -/
def extract_writing_instruments (t : Str) : WritingInstruments :=
  let parts := stripByDelimiter t (str ";")
  let main := pyRstripSet [ '.' ] (pyStrip (parts.headD []))
  let secondary :=
    match parts.get? 1 with
    | none => []
    | some snd => (stripByDelimiter snd (str ",")).map (fun i => pyRstripSet [ '.' ] (pyStrip i))
  ⟨main, secondary⟩

/-- The search loop of _find_tag_with_label_in_soup: the first paragraph
one of whose text nodes contains the label. -/
def findTagGo (label : Str) : List ParaT → Option ParaT
  | [] => none
  | pc :: rest =>
    if paraFindsString label pc.1 then some pc
    else findTagGo label rest

/-- _find_tag_with_label_in_soup (identical in both modules): an empty
label returns the not-found sentinel immediately; otherwise the first
paragraph one of whose text nodes contains the label. -/
def find_tag_with_label (label : Str) (paras : List ParaT) : Option ParaT :=
  if label.isEmpty then none else findTagGo label paras

/-- _get_paragraph_index_by_label (identical in both modules): the index
of the found paragraph in the list, none modelling the -1 sentinel.
BeautifulSoup tags compare equal by markup, so list.index finds the first
paragraph with the same markup; since equal markup means equal text
nodes, that is the first paragraph matching the label. -/
def get_paragraph_index_by_label (label : Str) (paras : List ParaT) : Option Nat :=
  match find_tag_with_label label paras with
  | none => none
  | some pc => (paras.map Prod.fst).indexOf? pc.1

example : get_siglum (str "<p><strong>[A<sup>c</sup>]</strong></p>") = (str "[A]", str "c") := by decide
example : get_siglum (str "<p><strong>A</strong></p>") = (str "A", []) := by decide
example : rowSearch (str "KUgis (38)") = some ⟨str "KU", str "gis", str "38"⟩ := by decide
example : rowSearch (str "Gg (I)") = some ⟨str "G", str "g", str "I"⟩ := by decide
example : rowSearch (str "Gg") = some ⟨str "G", str "g", []⟩ := by decide
example : rowSearch (str "x 12") = none := by decide
example : get_system_group [str "Bl. 1r", str "System 1: T. 1-8."] =
    [⟨str "1", str "1-8", [], none⟩] := by decide
example : get_system_group [str "System 2: Gg (1)"] =
    [⟨str "2", [], [], some ⟨str "G", str "g", str "1"⟩⟩] := by decide
example : searchBlAny (str "Bl. 1r") = true := by decide
example : searchBlAny (str "Bl") = false := by decide
example : get_folio_label (str "Bl.\xa01r") = str "1r" := by decide

deriving instance DecidableEq for Except

/-- Python list indexing: a missing element raises an IndexError. -/
def pyIndex (o : Option α) : Except PyErr α :=
  match o with
  | some a => .ok a
  | none => .error .indexError

/-- Pair every paragraph of a document with its following siblings. -/
def withTails : List Para → List ParaT
  | [] => []
  | p :: rest => (p, rest) :: withTails rest

/-- Python list slicing paras a..b (exclusive), on paragraphs that keep
their document-wide sibling chains. -/
def sliceT (tails : List ParaT) (r : Nat × Nat) : List ParaT :=
  (tails.drop r.1).take (r.2 - r.1)

/-- The optional superscript group of the siglum patterns,
([a-zA-Z][0-9]?(–[0-9])?)? : empty, a letter, a letter and a digit,
optionally followed by an en dash and a digit. -/
def matchesSupContent : Str → Bool
  | [] => true
  | [a] => a.isAlpha
  | [a, d] => a.isAlpha && d.isDigit
  | [a, '–', e] => a.isAlpha && e.isDigit
  | [a, d, '–', e] => a.isAlpha && d.isDigit && e.isDigit
  | _ => false

/-- Match a markup rest of the form sup element plus a fixed tail:
the sup content may not contain an angle bracket, so the first closing
sup tag delimits the group exactly as the regex does. -/
def matchesSupTail (r : Str) (post : Str) : Bool :=
  if (str "<sup>").isPrefixOf r then
    match firstIdx (str "</sup>") (r.drop 5) with
    | none => false
    | some j => matchesSupContent ((r.drop 5).take j) && ((r.drop 5).drop (j + 6)) == post
  else false

namespace Utils

/-- ContentItem of utils.py: itemLinkTo is a plain string. -/
structure ContentItem where
  item : Str
  itemLinkTo : Str
  itemDescription : Str
  folios : List Folio
  deriving DecidableEq, Repr

/-- Description of utils.py: the labelled fields are strings. -/
structure Description where
  desc : List Str
  writingMaterialString : Str
  writingInstruments : WritingInstruments
  title : Str
  date : Str
  pagination : Str
  measureNumbers : Str
  instrumentation : Str
  annotations : Str
  content : List ContentItem
  deriving DecidableEq, Repr

/-- SourceDescription of utils.py; missing models the key inserted for a
bracketed siglum (none when the key is absent). -/
structure SourceDescription where
  id : Str
  siglum : Str
  siglumAddendum : Str
  missing : Option Bool
  type : Str
  location : Str
  description : Description
  deriving DecidableEq, Repr

/-- SourceList of utils.py. -/
structure SourceList where
  sources : List SourceDescription
  deriving DecidableEq, Repr

/-- The first siglum pattern of _find_siglum_indices:
a paragraph that is exactly one bold capital letter. -/
def matchesSiglumPlain (m : Para) : Bool :=
  (str "<p><strong>").isPrefixOf m &&
    (match m.drop 11 with
     | c :: rest => c.isUpper && rest == str "</strong></p>"
     | [] => false)

/-- The second pattern: the bold capital letter in square brackets. -/
def matchesSiglumMissing (m : Para) : Bool :=
  (str "<p><strong>[").isPrefixOf m &&
    (match m.drop 12 with
     | c :: rest => c.isUpper && rest == str "]</strong></p>"
     | [] => false)

/-- The third pattern: the bold capital letter with a superscript addendum. -/
def matchesSiglumAddendum (m : Para) : Bool :=
  (str "<p><strong>").isPrefixOf m &&
    (match m.drop 11 with
     | c :: rest => c.isUpper && matchesSupTail rest (str "</strong></p>")
     | [] => false)

/-- The fourth pattern: brackets and superscript addendum combined. -/
def matchesSiglumAddendumMissing (m : Para) : Bool :=
  (str "<p><strong>[").isPrefixOf m &&
    (match m.drop 12 with
     | c :: rest => c.isUpper && matchesSupTail rest (str "]</strong></p>")
     | [] => false)

/-- A paragraph whose markup matches one of the four siglum patterns. -/
def isSiglumPara (m : Para) : Bool :=
  matchesSiglumPlain m || matchesSiglumMissing m ||
    matchesSiglumAddendum m || matchesSiglumAddendumMissing m

/-- The enumerate loop of _find_siglum_indices, with the running index. -/
def siglumIndicesFrom (n : Nat) : List Para → List Nat
  | [] => []
  | p :: rest =>
    if isSiglumPara p then n :: siglumIndicesFrom (n + 1) rest
    else siglumIndicesFrom (n + 1) rest

/-- _find_siglum_indices of utils.py: the indices of the paragraphs whose
markup matches a siglum pattern, in document order. -/
def find_siglum_indices (doc : List Para) : List Nat :=
  siglumIndicesFrom 0 doc

/-- _get_item of utils.py.  para_content.find(strong) is used for its
truthiness, and Python str.find returns -1 (truthy) when absent, so the
check only fails when the content starts with the letters strong. -/
def get_item (p : Para) : ContentItem :=
  let paraContent := stripTagU p (str "p")
  let strippedParaContent := stripByDelimiter paraContent (str "(")
  let strippedParaText := stripByDelimiter (tagText p) (str "(")
  if strippedParaContent.length > 1 then
    let text0 := strippedParaText.headD []
    let isSketch := pyFindTruthy paraContent (str "strong") &&
      (pyStartsWith text0 (str "M ") || pyStartsWith text0 (str "M* "))
    let itemLabel := if isSketch then pyStrip text0 else []
    let itemLinkTo :=
      if isSketch then
        if containsSub (str "/") itemLabel then str "SkRT"
        else pyReplace (pyReplace (pyReplace itemLabel (str " ") (str "_")) (str ".") (str "_")) (str "*") (str "star")
      else []
    let itemDescription := '(' :: pyRstripSet [ ':' ] (pyStrip ((strippedParaContent.get? 1).getD []))
    ⟨itemLabel, itemLinkTo, itemDescription, []⟩
  else
    ⟨[], [], pyRstripSet [ ':' ] (pyStrip (strippedParaContent.headD [])), []⟩

/-- The loop body state of _get_folios: the finished folios and the most
recently created folio (the local variable folio, none while unbound). -/
def getFoliosGo : List Para → List Folio → Option Folio → Except PyErr (List Folio)
  | [], done, cur => .ok (done ++ cur.toList)
  | p :: rest, done, cur =>
    let t := tagText p
    let spt0 := stripByDelimiter t (str " \t")
    let spt := if spt0.length = 1 then stripByDelimiter t (str "\t") else spt0
    let folioFound := searchBlAny t
    let pageFound := containsSub (str "S.") t
    if folioFound || pageFound then
      let f0 : Folio := ⟨get_folio_label (pyStrip (spt.headD [])),
        (if pageFound then some true else none), [], [], []⟩
      if paraFindsString (str "System") p then
        getFoliosGo rest (done ++ cur.toList) (some { f0 with systemGroups := [get_system_group spt] })
      else
        match spt.get? 1 with
        | none => .error .indexError
        | some d =>
          getFoliosGo rest (done ++ cur.toList) (some { f0 with folioDescription := pyStrip d })
    else if paraFindsString (str "System") p then
      match cur with
      | none => .error .unboundLocal
      | some f =>
        getFoliosGo rest done (some { f with systemGroups := f.systemGroups ++ [get_system_group spt] })
    else
      getFoliosGo rest done cur

/-- _get_folios of utils.py: a new folio per paragraph with a folio or
page marker (re.search with the unescaped folio pattern), a further
system group appended to the last created folio for a paragraph with only
the System marker; that append reads the loop-local folio variable, which
is unbound before the first folio paragraph (UnboundLocalError), and a
folio paragraph without systems takes its description from the second
tab-separated field (IndexError when absent). -/
def get_folios (sibling_paras : List Para) : Except PyErr (List Folio) :=
  getFoliosGo sibling_paras [] none

/-- _get_items of utils.py: one content item per paragraph that does not
start with a tab, the page marker or the folio marker; the item's folios
come from its sibling paragraphs. -/
def get_items : List ParaT → Except PyErr (List ContentItem)
  | [] => .ok []
  | pc :: rest => do
    let t := tagText pc.1
    if !pyStartsWith t (str "\t") && !pyStartsWith t (str "S.") && !pyStartsWith t (str "Bl.") then
      let item := get_item pc.1
      let sibs ← find_siblings pc.2 []
      let folios ← get_folios sibs
      let tailItems ← get_items rest
      pure ({ item with folios := folios } :: tailItems)
    else
      get_items rest

/-- The sibling while loop of _get_paragraph_content_by_label of utils.py:
append (with a break separator) every sibling ending in a semicolon, stop
inclusively at the first sibling ending in a period, stop exclusively at
any other sibling or at the end of the chain. -/
def contentWalkU : List Para → Str → Str
  | [], acc => acc
  | sib :: rest, acc =>
    let sc := stripTagU sib (str "p")
    if pyEndsWith sc (str ".") then acc ++ str "<br />" ++ sc
    else if pyEndsWith sc (str ";") then contentWalkU rest (acc ++ str "<br />" ++ sc)
    else acc

/-- _get_paragraph_content_by_label of utils.py (string version): the
part of the found paragraph after the label, extended by the semicolon
continuation walk, stripped; an empty string when the label is absent;
an IndexError when the label does not occur in the stripped markup. -/
def get_paragraph_content_by_label (label : Str) (paras : List ParaT) : Except PyErr Str :=
  match find_tag_with_label label paras with
  | none => .ok []
  | some pc =>
    let strippedContent := stripTagU pc.1 (str "p")
    match (stripByDelimiter strippedContent label).get? 1 with
    | none => .error .indexError
    | some content0 =>
      .ok (pyStrip (if pyEndsWith content0 (str ";") then contentWalkU pc.2 content0 else content0))

/-- _get_content_items of utils.py: the paragraphs strictly between the
content label and the critical-commentary label (or the last paragraph
when that label is absent) are handed to _get_items; no content label
yields an empty list. -/
def get_content_items (paras : List ParaT) : Except PyErr (List ContentItem) :=
  let contentIndex := get_paragraph_index_by_label (str "Inhalt:") paras
  let commentsIndex :=
    (get_paragraph_index_by_label (str "Textkritischer Kommentar:") paras).getD (paras.length - 1)
  match contentIndex with
  | none => .ok []
  | some ci => get_items ((paras.drop (ci + 1)).take (commentsIndex - (ci + 1)))

/-- _get_description of utils.py: the fourth paragraph as the first desc
entry, the eight labelled fields in order, and the content items. -/
def get_description (paras : List ParaT) : Except PyErr Description := do
  let p3 ← pyIndex (paras.get? 3)
  let desc0 := stripTagU p3.1 (str "p")
  let wm ← get_paragraph_content_by_label (str "Beschreibstoff:") paras
  let wiText ← get_paragraph_content_by_label (str "Schreibstoff:") paras
  let title ← get_paragraph_content_by_label (str "Titel:") paras
  let date ← get_paragraph_content_by_label (str "Datierung:") paras
  let pagination ← get_paragraph_content_by_label (str "Paginierung:") paras
  let measureNumbers ← get_paragraph_content_by_label (str "Taktzahlen:") paras
  let instrumentation ← get_paragraph_content_by_label (str "Besetzung:") paras
  let annotations ← get_paragraph_content_by_label (str "Eintragungen:") paras
  let contentItems ← get_content_items paras
  pure ⟨[desc0], wm, extract_writing_instruments wiText, title, date, pagination,
    measureNumbers, instrumentation, annotations, contentItems⟩

/-- _create_source_description of utils.py: siglum and addendum from the
first paragraph, bracket removal with the missing flag, the derived id,
type and location from the second and third paragraphs, and the
description. -/
def create_source_description (paras : List ParaT) : Except PyErr SourceDescription := do
  let p0 ← pyIndex (paras.get? 0)
  let sa := get_siglum p0.1
  let bracketed := pyStartsWith sa.1 (str "[") && pyEndsWith sa.1 (str "]")
  let siglum := if bracketed then (sa.1.drop 1).dropLast else sa.1
  let missing : Option Bool := if bracketed then some true else none
  let siglumString := siglum ++ sa.2
  let srcId := if siglumString.isEmpty then [] else str "source_" ++ siglumString
  let p1 ← pyIndex (paras.get? 1)
  let p2 ← pyIndex (paras.get? 2)
  let desc ← get_description paras
  pure ⟨srcId, siglum, sa.2, missing, stripTagU p1.1 (str "p"), stripTagU p2.1 (str "p"), desc⟩

/-- The per-siglum paragraph ranges of create_source_list: each siglum
index paired with the next one, the last with the document length. -/
def sourceRanges : List Nat → Nat → List (Nat × Nat)
  | [], _ => []
  | a :: rest, docLen => (a, (rest.head?).getD docLen) :: sourceRanges rest docLen

/-- The duplicate check of create_source_list: a source description whose
id already occurs in the list is reported and skipped, leaving the list
unchanged; otherwise it is appended. -/
def addSourceById (sources : List SourceDescription) (sd : SourceDescription) : List SourceDescription :=
  if sources.any (fun s => s.id == sd.id) then sources else sources ++ [sd]

/-- Assembly of one siglum range: the source description of the sliced
paragraphs (with their document-wide sibling chains). -/
def asmRange (tails : List ParaT) (r : Nat × Nat) : Except PyErr SourceDescription :=
  create_source_description (sliceT tails r)

/-- One iteration of the create_source_list loop. -/
def cslStep (tails : List ParaT) (acc : List SourceDescription) (r : Nat × Nat) :
    Except PyErr (List SourceDescription) :=
  if r.1 < r.2 then do
    let sd ← asmRange tails r
    pure (addSourceById acc sd)
  else
    pure acc

/-- ConversionUtils.create_source_list of utils.py: partition the
document at the siglum indices, assemble one source description per
range, and append each to the output unless its id already occurs. -/
def create_source_list (doc : List Para) : Except PyErr SourceList := do
  let sources ← (sourceRanges (find_siglum_indices doc) doc.length).foldlM (cslStep (withTails doc)) []
  pure ⟨sources⟩

end Utils

example : Utils.isSiglumPara (str "<p><strong>A</strong></p>") = true := by decide
example : Utils.isSiglumPara (str "<p><strong>[A]</strong></p>") = true := by decide
example : Utils.isSiglumPara (str "<p><strong>A<sup>c</sup></strong></p>") = true := by decide
example : Utils.isSiglumPara (str "<p><strong>[A<sup>F1–2</sup>]</strong></p>") = true := by decide
example : Utils.isSiglumPara (str "<p>A</p>") = false := by decide
example : Utils.isSiglumPara (str "<p><strong>Ab</strong></p>") = false := by decide
example : Utils.find_siglum_indices
    [str "<p>x</p>", str "<p><strong>A</strong></p>", str "<p><strong>B</strong></p>"] = [1, 2] := by decide

namespace Helper

/-- The itemLinkTo dictionary of utils_helper.py. -/
structure LinkTo where
  complexId : Str
  sheetId : Str
  deriving DecidableEq, Repr

/-- ContentItem of utils_helper.py: itemLinkTo is a dictionary, none
modelling the initial empty one. -/
structure ContentItem where
  item : Str
  itemLinkTo : Option LinkTo
  itemDescription : Str
  folios : List Folio
  deriving DecidableEq, Repr

/-- Description of utils_helper.py: the labelled fields are lists. -/
structure Description where
  desc : List Str
  writingMaterialStrings : List Str
  writingInstruments : WritingInstruments
  titles : List Str
  dates : List Str
  paginations : List Str
  measureNumbers : List Str
  instrumentations : List Str
  annotations : List Str
  contents : List ContentItem
  deriving DecidableEq, Repr

/-- SourceDescription of utils_helper.py. -/
structure SourceDescription where
  id : Str
  siglum : Str
  siglumAddendum : Str
  missing : Option Bool
  type : Str
  location : Str
  description : Description
  deriving DecidableEq, Repr

/-- The sheet id of _get_item: the item label with spaces and dots
replaced by underscores and the asterisk replaced by the word star. -/
def sheetIdOf (itemLabel : Str) : Str :=
  pyReplace (pyReplace (pyReplace itemLabel (str " ") (str "_")) (str ".") (str "_")) (str "*") (str "star")

/-- The complex id of _get_item: the first two underscore-separated
tokens of the sheet id, concatenated and lowercased. -/
def complexIdOf (sheetId : Str) : Str :=
  pyLower (joinL ((pySplit (str "_") sheetId).take 2))

/-- _get_item of utils_helper.py.  As in the other variant, the
para_content.find(strong) truthiness check only fails when the stripped
content starts with the letters strong; a paragraph whose text starts
with the sketch sigle M gets an item label and a link dictionary whose
sheet id is overridden by the row-table sentinel SkRT when the label
contains a slash; its description is the part after the opening
parenthesis (an IndexError when the stripped markup has none); other
paragraphs with a strong tag are reported and yield empty fields; plain
paragraphs become a bare description. -/
def get_item (p : Para) : Except PyErr ContentItem :=
  let paraContent := stripTagH p (str "p")
  let t := tagText p
  if pyFindTruthy paraContent (str "strong") &&
      (pyStartsWith t (str "M ") || pyStartsWith t (str "M* ")) then
    let itemLabel := pyStrip ((stripByDelimiter t (str "(")).headD [])
    let sheetId := sheetIdOf itemLabel
    let linkTo : LinkTo :=
      ⟨complexIdOf sheetId, if containsSub (str "/") itemLabel then str "SkRT" else sheetId⟩
    match (stripByDelimiter paraContent (str "(")).get? 1 with
    | none => .error .indexError
    | some d =>
      .ok ⟨itemLabel, some linkTo, '(' :: pyRstripSet [ ':' ] (pyStrip d), []⟩
  else if pyFindTruthy paraContent (str "strong") then
    .ok ⟨[], none, [], []⟩
  else
    .ok ⟨[], none, pyRstripSet [ ':' ] (pyStrip paraContent), []⟩

/-- The loop body state of _get_folios of utils_helper.py (see
Utils.getFoliosGo; this variant resplits when the first split does not
give exactly two parts and guards the folio-label extraction). -/
def getFoliosGo : List Para → List Folio → Option Folio → Except PyErr (List Folio)
  | [], done, cur => .ok (done ++ cur.toList)
  | p :: rest, done, cur =>
    let t := tagText p
    let spt0 := stripByDelimiter t (str " \t")
    let spt := if spt0.length ≠ 2 then stripByDelimiter t (str "\t") else spt0
    let folioFound := searchBlAny t
    let pageFound := containsSub (str "S.") t
    if folioFound || pageFound then
      let s0 := spt.headD []
      let label :=
        if containsSub (str "Bl.") s0 || containsSub (str "S.") s0 then
          get_folio_label (pyStrip s0)
        else if spt.length > 2 &&
            (containsSub (str "Bl.") ((spt.get? 1).getD []) ||
             containsSub (str "S.") ((spt.get? 1).getD [])) then
          get_folio_label (pyStrip ((spt.get? 1).getD []))
        else []
      let f0 : Folio := ⟨label, (if pageFound then some true else none), [], [], []⟩
      if paraFindsString (str "System") p then
        getFoliosGo rest (done ++ cur.toList) (some { f0 with systemGroups := [get_system_group spt] })
      else
        match spt.get? 1 with
        | none => .error .indexError
        | some d =>
          getFoliosGo rest (done ++ cur.toList) (some { f0 with folioDescription := pyStrip d })
    else if paraFindsString (str "System") p then
      match cur with
      | none => .error .unboundLocal
      | some f =>
        getFoliosGo rest done (some { f with systemGroups := f.systemGroups ++ [get_system_group spt] })
    else
      getFoliosGo rest done cur

/-- _get_folios of utils_helper.py. -/
def get_folios (sibling_paras : List Para) : Except PyErr (List Folio) :=
  getFoliosGo sibling_paras [] none

/-- _get_items of utils_helper.py. -/
def get_items : List ParaT → Except PyErr (List ContentItem)
  | [] => .ok []
  | pc :: rest => do
    let t := tagText pc.1
    if !pyStartsWith t (str "\t") && !pyStartsWith t (str "S.") && !pyStartsWith t (str "Bl.") then
      let item ← get_item pc.1
      let sibs ← find_siblings pc.2 []
      let folios ← get_folios sibs
      let tailItems ← get_items rest
      pure ({ item with folios := folios } :: tailItems)
    else
      get_items rest

/-- The fragment cleaning of _get_paragraph_content_by_label of
utils_helper.py: strip, then rstrip the trailing periods, then rstrip
the trailing semicolons. -/
def cleanFrag (s : Str) : Str :=
  pyRstripSet [ ';' ] (pyRstripSet [ '.' ] (pyStrip s))

/-- The sibling while loop of _get_paragraph_content_by_label of
utils_helper.py: append the cleaned content of every sibling ending in a
period or semicolon, stopping inclusively after a period and exclusively
at anything else or at the end of the chain. -/
def contentWalkH : List Para → List Str
  | [] => []
  | sib :: rest =>
    let sc := stripTagH sib (str "p")
    if pyEndsWith sc (str ".") || pyEndsWith sc (str ";") then
      if pyEndsWith sc (str ".") then [cleanFrag sc]
      else cleanFrag sc :: contentWalkH rest
    else []

/-- _get_paragraph_content_by_label of utils_helper.py (list version):
an empty list when the label is absent; otherwise the cleaned part of
the found paragraph after the label, followed, when that part ends with
a semicolon, by the cleaned continuation siblings; an IndexError when
the label does not occur in the stripped markup. -/
def get_paragraph_content_by_label (label : Str) (paras : List ParaT) : Except PyErr (List Str) :=
  match find_tag_with_label label paras with
  | none => .ok []
  | some pc =>
    let strippedContent := stripTagH pc.1 (str "p")
    match (stripByDelimiter strippedContent label).get? 1 with
    | none => .error .indexError
    | some initial =>
      .ok (cleanFrag initial ::
        (if pyEndsWith initial (str ";") then contentWalkH pc.2 else []))

/-- _get_content_items of utils_helper.py: as in the other variant, but
the commentary boundary tries two labels before falling back to the last
paragraph. -/
def get_content_items (paras : List ParaT) : Except PyErr (List ContentItem) :=
  match get_paragraph_index_by_label (str "Inhalt:") paras with
  | none => .ok []
  | some ci =>
    let commentsIndex :=
      match get_paragraph_index_by_label (str "Textkritischer Kommentar:") paras with
      | some k => k
      | none =>
        match get_paragraph_index_by_label (str "Textkritische Anmerkungen:") paras with
        | some k => k
        | none => paras.length - 1
    get_items ((paras.drop (ci + 1)).take (commentsIndex - (ci + 1)))

/-- _get_description of utils_helper.py: the fourth paragraph as the
first desc entry, the eight labelled list fields in order (the writing
instruments extracted from the first fragment when present), and the
content items. -/
def get_description (paras : List ParaT) : Except PyErr Description := do
  let p3 ← pyIndex (paras.get? 3)
  let desc0 := stripTagH p3.1 (str "p")
  let wms ← get_paragraph_content_by_label (str "Beschreibstoff:") paras
  let wiContent ← get_paragraph_content_by_label (str "Schreibstoff:") paras
  let wi :=
    match wiContent.head? with
    | some first => extract_writing_instruments first
    | none => (⟨[], []⟩ : WritingInstruments)
  let titles ← get_paragraph_content_by_label (str "Titel:") paras
  let dates ← get_paragraph_content_by_label (str "Datierung:") paras
  let paginations ← get_paragraph_content_by_label (str "Paginierung:") paras
  let measureNumbers ← get_paragraph_content_by_label (str "Taktzahlen:") paras
  let instrumentations ← get_paragraph_content_by_label (str "Besetzung:") paras
  let annotations ← get_paragraph_content_by_label (str "Eintragungen:") paras
  let contents ← get_content_items paras
  pure ⟨[desc0], wms, wi, titles, dates, paginations, measureNumbers,
    instrumentations, annotations, contents⟩

/-- ConversionUtilsHelper.create_source_description of utils_helper.py:
siglum and addendum from the first paragraph, bracket removal with the
missing flag, the derived id, type and location from the second and
third paragraphs, and the description. -/
def create_source_description (paras : List ParaT) : Except PyErr SourceDescription := do
  let p0 ← pyIndex (paras.get? 0)
  let sa := get_siglum p0.1
  let bracketed := pyStartsWith sa.1 (str "[") && pyEndsWith sa.1 (str "]")
  let siglum := if bracketed then (sa.1.drop 1).dropLast else sa.1
  let missing : Option Bool := if bracketed then some true else none
  let siglumString := siglum ++ sa.2
  let srcId := if siglumString.isEmpty then [] else str "source_" ++ siglumString
  let p1 ← pyIndex (paras.get? 1)
  let p2 ← pyIndex (paras.get? 2)
  let desc ← get_description paras
  pure ⟨srcId, siglum, sa.2, missing, stripTagH p1.1 (str "p"), stripTagH p2.1 (str "p"), desc⟩

end Helper

example : Helper.get_item (str "<p><strong>M 22 Sk1</strong> (Skizze):</p>") =
    .ok ⟨str "M 22 Sk1", some ⟨str "m22", str "M_22_Sk1"⟩, str "(Skizze)", []⟩ := by decide
example : Helper.get_item (str "<p><strong>M 286 Sk# / M 287 Sk#</strong> (Reihentabelle):</p>") =
    .ok ⟨str "M 286 Sk# / M 287 Sk#",
      some ⟨str "m286", str "SkRT"⟩, str "(Reihentabelle)", []⟩ := by decide
example : Helper.get_paragraph_content_by_label (str "Titel:")
    [(str "<p>Titel: foo;</p>", [str "<p>bar;</p>", str "<p>baz.</p>", str "<p>x</p>"])] =
    .ok [str "foo", str "bar", str "baz"] := by decide
example : Helper.get_folios [str "<p>Bl. 1r\tSystem 1: T. 1-2.</p>"] =
    .ok [⟨str "1r", none, [], [], [[⟨str "1", str "1-2", [], none⟩]]⟩] := by decide
example : Helper.get_folios [str "<p>Bl. 1r foo</p>"] = .error .indexError := by decide
example : Helper.get_folios [str "<p>\tSystem 1: T. 1-2.</p>"] = .error .unboundLocal := by decide

/-!
Embedding of src/compare_pdfs/compare_pdfs.py.  The image operations
(cv2.absdiff, threshold, findContours) are external library collaborators;
they are abstracted into a page-difference predicate hasDiff over an
abstract image type.  The observable effects of a run (which pages were
compared, which diff images were written, whether the diff.txt summary
was written and which page numbers it reports) are collected in a log.
-/

namespace ComparePdfs

/-- The observable effects of one compare_pdfs run. -/
structure CompareLog where
  comparedPages : List Nat
  wroteImages : List Nat
  diffTxt : Option (List Nat)
  deriving DecidableEq, Repr

/-- The log of a run that performed no comparison and wrote nothing. -/
def emptyLog : CompareLog :=
  ⟨[], [], none⟩

/-- compare_page: compare one 1-based page of the two image lists and
report whether differences were found (the diff image for the page is
always written; that effect is recorded by the caller). -/
def compare_page (hasDiff : α → α → Bool) [Inhabited α]
    (images1 images2 : List α) (pageNum : Nat) : Bool :=
  hasDiff (images1.getD (pageNum - 1) default) (images2.getD (pageNum - 1) default)

/-- compare_pages_in_parallel: compare pages 1..n (each independent,
keyed by page number) and keep the page numbers with differences. -/
def compare_pages_in_parallel (hasDiff : α → α → Bool) [Inhabited α]
    (images1 images2 : List α) : List Nat :=
  ((List.range images1.length).map (· + 1)).filter
    (fun n => compare_page hasDiff images1 images2 n)

/-- compare_pdfs: raise on a page-count mismatch before creating the
diff directory, comparing any page or writing any output; otherwise
compare every page, write one diff image per page, and write the
diff.txt summary listing the pages with changes. -/
def compare_pdfs (hasDiff : α → α → Bool) [Inhabited α]
    (images1 images2 : List α) : CompareLog × Except Str Unit :=
  if images1.length ≠ images2.length then
    (emptyLog, .error (str "PDFs have different number of pages"))
  else
    let pages := (List.range images1.length).map (· + 1)
    ⟨⟨pages, pages, some (compare_pages_in_parallel hasDiff images1 images2)⟩, .ok ()⟩

end ComparePdfs

example : (ComparePdfs.compare_pdfs (fun a b : Nat => a ≠ b) [1, 2] [1]).2 =
    .error (str "PDFs have different number of pages") := by decide
example : ComparePdfs.compare_pdfs (fun a b : Nat => a ≠ b) [1, 2] [1, 5] =
    (⟨[1, 2], [1, 2], some [2]⟩, .ok ()) := by decide

/-!
Specification-side definitions, written from the wording of the claims
(not from the code), to be compared with the embedded functions, and the
concrete inputs used by witnesses and counterexamples.
-/

/-- Unwrap an ok result. -/
def isOkE (r : Except PyErr α) : Bool :=
  match r with
  | .ok _ => true
  | .error _ => false

/-- Claim C10's boundary: a sibling with a strong tag or whose text ends
with a period. -/
def boundaryB (p : Para) : Bool :=
  paraHasStrong p || pyEndsWith (tagText p) (str ".")

/-- Claim C10's description of the sibling walk: the prefix of the chain
up to the first boundary, the period-terminated paragraph included and
the strong-tagged paragraph excluded; none when no boundary exists. -/
def specSiblings : List Para → Option (List Para)
  | [] => none
  | p :: rest =>
    if paraHasStrong p then some []
    else if pyEndsWith (tagText p) (str ".") then some [p]
    else (specSiblings rest).map (p :: ·)

/-- Claim C2's description of the ranges: each siglum index paired with
the next, the final one extending to the end of the document. -/
def specClaimRanges (idxs : List Nat) (docLen : Nat) : List (Nat × Nat) :=
  idxs.zip (idxs.drop 1 ++ [docLen])

/-- Claim C3's description of the continuation walk: append each sibling
ending in a semicolon or a period, stop inclusively at the first sibling
ending in a period and exclusively at the first sibling ending in
neither; every fragment has its trailing period and semicolon stripped. -/
def specFieldWalk : List Para → List Str
  | [] => []
  | sib :: rest =>
    if pyEndsWith (stripTagH sib (str "p")) (str ".") then
      [Helper.cleanFrag (stripTagH sib (str "p"))]
    else if pyEndsWith (stripTagH sib (str "p")) (str ";") then
      Helper.cleanFrag (stripTagH sib (str "p")) :: specFieldWalk rest
    else []

/-- Claim C3's description of the extracted fragments: the label
paragraph's trailing content first, extended by the sibling walk exactly
when that content ends with a semicolon. -/
def specFieldFragments (initial : Str) (chain : List Para) : List Str :=
  Helper.cleanFrag initial ::
    (if pyEndsWith initial (str ";") then specFieldWalk chain else [])

/-- Claim C6's description of the normalized label: spaces and dots
replaced by underscores, the asterisk replaced by the word star. -/
def specNormalizedLabel (label : Str) : Str :=
  pyReplace (pyReplace (pyReplace label (str " ") (str "_")) (str ".") (str "_")) (str "*") (str "star")

/-- Claim C6's description of the complex id: the lowercase concatenation
of the first two underscore-delimited tokens of the normalized label. -/
def specComplexId (label : Str) : Str :=
  pyLower (joinL ((pySplit (str "_") (specNormalizedLabel label)).take 2))

/-- Claim C8's system-only paragraph: it contains the System marker but
neither the folio pattern nor the page pattern of _get_folios. -/
def hasFolioMarker (p : Para) : Bool :=
  searchBlAny (tagText p) || containsSub (str "S.") (tagText p)

/-- A paragraph that extends the current folio's system groups. -/
def isSystemOnly (p : Para) : Bool :=
  paraFindsString (str "System") p && !hasFolioMarker p

/-- A system-only paragraph occurs before any folio or page paragraph. -/
def sysBeforeFolio : List Para → Bool
  | [] => false
  | p :: rest => isSystemOnly p || (!hasFolioMarker p && sysBeforeFolio rest)

/-- Concrete document for the C1 and C2 witnesses: two well-separated
sigla with complete four-paragraph records. -/
def wDoc : List Para :=
  [str "<p><strong>A</strong></p>", str "<p>Skizzen</p>", str "<p>CH-Bps</p>", str "<p>1 Blatt.</p>",
   str "<p><strong>B</strong></p>", str "<p>Abschrift</p>", str "<p>CH-Bps</p>", str "<p>2 Blatt.</p>"]

/-- An empty description value for the duplicate-skip witness. -/
def wDescEmpty : Utils.Description :=
  ⟨[[]], [], ⟨[], []⟩, [], [], [], [], [], [], []⟩

/-- A record with id source_A. -/
def wSd1 : Utils.SourceDescription :=
  ⟨str "source_A", str "A", [], none, [], [], wDescEmpty⟩

/-- A second, different record with the same id source_A. -/
def wSd2 : Utils.SourceDescription :=
  ⟨str "source_A", str "A", str "x", none, str "Skizzen", [], wDescEmpty⟩

/-- Concrete document for the C2 counterexample: two adjacent siglum
paragraphs, so the first range has a single paragraph. -/
def c2CexDoc : List Para :=
  [str "<p><strong>A</strong></p>", str "<p><strong>B</strong></p>"]

/-- Concrete sibling list for the C8 counterexample: one folio paragraph
without a tab-separated description part (and no system-only paragraph,
so the claim's precondition holds). -/
def c8CexSibs : List Para :=
  [str "<p>Bl. 1r foo</p>"]

/-- Concrete sibling list for the C8 witness: a folio line followed by a
system-only line. -/
def c8WSibs : List Para :=
  [str "<p>Bl. 1r\tSystem 1: T. 1-2;</p>", str "<p>\t\tSystem 2: T. 3-4.</p>"]

/-- Concrete paragraph list for the C3 witness. -/
def c3WParas : List ParaT :=
  [(str "<p>Titel: foo;</p>", [str "<p>bar;</p>", str "<p>baz.</p>", str "<p>x</p>"])]

/-- Concrete paragraph partitions for the C5 witness. -/
def c5WParasBr : List ParaT :=
  withTails [str "<p><strong>[A]</strong></p>", str "<p>Skizzen</p>", str "<p>CH-Bps</p>", str "<p>1 Blatt.</p>"]

/-- Concrete unbracketed partition for the C5 witness. -/
def c5WParasPl : List ParaT :=
  withTails [str "<p><strong>A</strong></p>", str "<p>Skizzen</p>", str "<p>CH-Bps</p>", str "<p>1 Blatt.</p>"]

/-- Concrete paragraph list for the C7 witness: the label does not occur. -/
def c7WParas : List ParaT :=
  [(str "<p>1 Blatt.</p>", []), (str "<p>CH-Bps</p>", [])]

/-!
Theorems.  Small general lemmas first, then one theorem per claim with
its witness or counterexample.
-/

theorem except_bind_ok (a : α) (f : α → Except PyErr β) :
    (Except.ok a >>= f) = f a := rfl

theorem except_bind_error (e : PyErr) (f : α → Except PyErr β) :
    ((Except.error e : Except PyErr α) >>= f) = Except.error e := rfl

theorem isOkE_ok (a : α) : isOkE (Except.ok a) = true := rfl

theorem isOkE_error (e : PyErr) : isOkE (Except.error e : Except PyErr α) = false := rfl

theorem find_siblings_spec (chain : List Para) : ∀ acc : List Para,
    find_siblings chain acc =
      (match specSiblings chain with
       | some l => Except.ok (acc ++ l)
       | none => Except.error PyErr.attrError) := by
  induction chain with
  | nil => intro acc; rfl
  | cons p rest ih =>
    intro acc
    by_cases h1 : paraHasStrong p = true
    · simp [find_siblings, specSiblings, h1]
    · by_cases h2 : pyEndsWith (tagText p) (str ".") = true
      · simp [find_siblings, specSiblings, h1, h2]
      · simp only [find_siblings, specSiblings, h1, h2, if_false, Bool.false_eq_true]
        rw [ih (acc ++ [p])]
        cases specSiblings rest <;> simp

theorem specSiblings_isSome (chain : List Para) :
    (specSiblings chain).isSome = true ↔ ∃ p ∈ chain, boundaryB p = true := by
  induction chain with
  | nil => simp [specSiblings]
  | cons p rest ih =>
    by_cases h1 : paraHasStrong p = true
    · simp [specSiblings, boundaryB, h1]
    · by_cases h2 : pyEndsWith (tagText p) (str ".") = true
      · simp [specSiblings, boundaryB, h1, h2]
      · simp [specSiblings, boundaryB, h1, h2, ih]

/-- C10: when the forward sibling chain contains a paragraph with a
strong tag or whose text ends with a period, _find_siblings terminates
and returns exactly the prefix of the chain up to that first boundary
(the period-terminated paragraph included, the strong-tagged paragraph
excluded); when no paragraph satisfies either condition the recursion
walks onto a None sibling and fails with an AttributeError. -/
theorem c10_find_siblings_boundary (chain : List Para) :
    find_siblings chain [] =
      (match specSiblings chain with
       | some l => Except.ok l
       | none => Except.error PyErr.attrError) ∧
    ((∃ p ∈ chain, boundaryB p = true) ↔ isOkE (find_siblings chain []) = true) := by
  have h := find_siblings_spec chain []
  constructor
  · rw [h]; cases specSiblings chain <;> simp
  · rw [h, ← specSiblings_isSome chain]
    cases specSiblings chain <;> simp [isOkE]

theorem findTagGo_none (label : Str) (paras : List ParaT)
    (h : ∀ pc ∈ paras, paraFindsString label pc.1 = false) :
    findTagGo label paras = none := by
  induction paras with
  | nil => rfl
  | cons pc rest ih =>
    have h1 := h pc (by simp)
    simp only [findTagGo, h1, Bool.false_eq_true, if_false]
    exact ih (fun x hx => h x (by simp [hx]))

/-- C7: for an empty label, or a label occurring in no paragraph of the
list, the label lookup returns the not-found sentinel (None, and the
index lookup the -1 sentinel, modelled as none) and the field extractor
returns an empty list; no exception is raised in either case. -/
theorem c7_label_not_found_sentinel (label : Str) (paras : List ParaT)
    (h : label = [] ∨ ∀ pc ∈ paras, paraFindsString label pc.1 = false) :
    find_tag_with_label label paras = none ∧
    get_paragraph_index_by_label label paras = none ∧
    Helper.get_paragraph_content_by_label label paras = Except.ok [] := by
  have hf : find_tag_with_label label paras = none := by
    unfold find_tag_with_label
    by_cases he : label.isEmpty = true
    · simp [he]
    · simp only [he, Bool.false_eq_true, if_false]
      cases h with
      | inl h0 => exact absurd (by simp [h0]) he
      | inr hAll => exact findTagGo_none label paras hAll
  refine ⟨hf, ?_, ?_⟩
  · unfold get_paragraph_index_by_label
    rw [hf]
  · unfold Helper.get_paragraph_content_by_label
    rw [hf]

/-- Witness for C7 at the concrete label Titel: absent from the
paragraphs, and at an empty label. -/
theorem c7_witness :
    (find_tag_with_label (str "Titel:") c7WParas = none ∧
      get_paragraph_index_by_label (str "Titel:") c7WParas = none ∧
      Helper.get_paragraph_content_by_label (str "Titel:") c7WParas = Except.ok []) ∧
    (find_tag_with_label [] c7WParas = none ∧
      get_paragraph_index_by_label [] c7WParas = none ∧
      Helper.get_paragraph_content_by_label [] c7WParas = Except.ok []) :=
  ⟨c7_label_not_found_sentinel (str "Titel:") c7WParas (Or.inr (by decide)),
   c7_label_not_found_sentinel [] c7WParas (Or.inl rfl)⟩

/-- C9: compare_pdfs raises exactly when the two extracted page-image
lists have different lengths, and then before any page comparison or any
write of a diff image or of the diff.txt summary (the effect log of the
error case is empty); with equal page counts no error is raised and
every page 1..n is compared. -/
theorem c9_page_count_mismatch {α : Type} [Inhabited α] (hasDiff : α → α → Bool)
    (images1 images2 : List α) :
    (images1.length ≠ images2.length →
      ComparePdfs.compare_pdfs hasDiff images1 images2 =
        (ComparePdfs.emptyLog, Except.error (str "PDFs have different number of pages"))) ∧
    (images1.length = images2.length →
      (ComparePdfs.compare_pdfs hasDiff images1 images2).2 = Except.ok () ∧
      (ComparePdfs.compare_pdfs hasDiff images1 images2).1.comparedPages =
        (List.range images1.length).map (· + 1)) := by
  constructor
  · intro h
    simp [ComparePdfs.compare_pdfs, h]
  · intro h
    simp [ComparePdfs.compare_pdfs, h]

/-- Witness for C9 at concrete image lists of lengths 2 and 1 (the
mismatch branch) and of lengths 2 and 2 (the comparison branch). -/
theorem c9_witness :
    ComparePdfs.compare_pdfs (fun a b : Nat => decide (a ≠ b)) [1, 2] [1] =
      (ComparePdfs.emptyLog, Except.error (str "PDFs have different number of pages")) ∧
    (ComparePdfs.compare_pdfs (fun a b : Nat => decide (a ≠ b)) [1, 2] [1, 5]).2 = Except.ok () ∧
    (ComparePdfs.compare_pdfs (fun a b : Nat => decide (a ≠ b)) [1, 2] [1, 5]).1.comparedPages =
      (List.range 2).map (· + 1) :=
  ⟨(c9_page_count_mismatch (fun a b : Nat => decide (a ≠ b)) [1, 2] [1]).1 (by decide),
   (c9_page_count_mismatch (fun a b : Nat => decide (a ≠ b)) [1, 2] [1, 5]).2 (by decide)⟩

theorem systemOfSeg_shape (seg : Str) (s : System) (v : Str)
    (hs : systemOfSeg seg = some s)
    (hv : (stripByDelimiter seg (str ":")).get? 1 = some v) :
    (containsSub (str "T.") v = true →
      s.measure = pyStrip (pyRstripSet ['.', ';'] (pyLstripSet ['T', '.'] v)) ∧ s.row = none) ∧
    (containsSub (str "T.") v = false → s.measure = [] ∧ s.row = rowSearch v) := by
  unfold systemOfSeg at hs
  by_cases h1 : containsSub (str "Bl.") seg = true
  · simp [h1] at hs
  · by_cases h2 : containsSub (str "S.") seg = true
    · simp [h1, h2] at hs
    · by_cases h3 : containsSub (str "System") seg = true
      · simp only [h1, h2, h3, Bool.false_eq_true, if_false, if_true] at hs
        rw [hv] at hs
        by_cases hT : containsSub (str "T.") v = true
        · simp only [hT, if_true] at hs
          cases hs
          simp [hT]
        · simp only [hT, Bool.false_eq_true, if_false] at hs
          cases hs
          simp [hT]
      · simp [h1, h2, h3] at hs

theorem systemOfSeg_excl (seg : Str) (s : System) (hs : systemOfSeg seg = some s) :
    s.measure = [] ∨ s.row = none := by
  unfold systemOfSeg at hs
  by_cases h1 : containsSub (str "Bl.") seg = true
  · simp [h1] at hs
  · by_cases h2 : containsSub (str "S.") seg = true
    · simp [h1, h2] at hs
    · by_cases h3 : containsSub (str "System") seg = true
      · simp only [h1, h2, h3, Bool.false_eq_true, if_false, if_true] at hs
        cases hp : (stripByDelimiter seg (str ":")).get? 1 with
        | none => rw [hp] at hs; simp at hs
        | some v =>
          rw [hp] at hs
          by_cases hT : containsSub (str "T.") v = true
          · simp only [hT, if_true] at hs
            cases hs
            exact Or.inr rfl
          · simp only [hT, Bool.false_eq_true, if_false] at hs
            cases hs
            exact Or.inl rfl
      · simp [h1, h2, h3] at hs

/-- C4: every System produced by _get_system_group carries a measure
label or a row, never both; per segment, when the text after the colon
contains the measure marker T. the measure field is set to that text
with the leading marker characters and the trailing period or semicolon
stripped and no row is attached, and otherwise the measure field stays
empty and a row is attached exactly when the row pattern matches. -/
theorem c4_system_measure_row_exclusive :
    (∀ (spt : List Str) (s : System), s ∈ get_system_group spt →
      s.measure = [] ∨ s.row = none) ∧
    (∀ (seg : Str) (s : System) (v : Str), systemOfSeg seg = some s →
      (stripByDelimiter seg (str ":")).get? 1 = some v →
      ((containsSub (str "T.") v = true →
          s.measure = pyStrip (pyRstripSet ['.', ';'] (pyLstripSet ['T', '.'] v)) ∧
          s.row = none) ∧
       (containsSub (str "T.") v = false →
          s.measure = [] ∧ s.row = rowSearch v))) := by
  constructor
  · intro spt s hmem
    unfold get_system_group at hmem
    rcases List.mem_filterMap.mp hmem with ⟨seg, _, hseg⟩
    exact systemOfSeg_excl seg s hseg
  · intro seg s v hs hv
    exact systemOfSeg_shape seg s v hs hv

/-- Witness for C4 at a concrete folio line with a measure system and at
a concrete row segment. -/
theorem c4_witness :
    ((⟨str "1", str "1-2", [], none⟩ : System).measure = [] ∨
      (⟨str "1", str "1-2", [], none⟩ : System).row = none) ∧
    (containsSub (str "T.") (str "Gg (1)") = false →
      (⟨str "2", [], [], some ⟨str "G", str "g", str "1"⟩⟩ : System).measure = [] ∧
      (⟨str "2", [], [], some ⟨str "G", str "g", str "1"⟩⟩ : System).row =
        rowSearch (str "Gg (1)")) :=
  ⟨c4_system_measure_row_exclusive.1 [str "Bl. 1r", str "System 1: T. 1-2."]
      ⟨str "1", str "1-2", [], none⟩ (by decide),
   (c4_system_measure_row_exclusive.2 (str "System 2: Gg (1)")
      ⟨str "2", [], [], some ⟨str "G", str "g", str "1"⟩⟩ (str "Gg (1)")
      (by decide) (by decide)).2⟩

theorem contentWalkH_eq_specFieldWalk (chain : List Para) :
    Helper.contentWalkH chain = specFieldWalk chain := by
  induction chain with
  | nil => rfl
  | cons sib rest ih =>
    by_cases h1 : pyEndsWith (stripTagH sib (str "p")) (str ".") = true
    · simp [Helper.contentWalkH, specFieldWalk, h1]
    · by_cases h2 : pyEndsWith (stripTagH sib (str "p")) (str ";") = true
      · simp [Helper.contentWalkH, specFieldWalk, h1, h2, ih]
      · simp [Helper.contentWalkH, specFieldWalk, h1, h2]

/-- C3: for a label found in the paragraph list, the field extractor
returns the found paragraph's content after the label as the first
fragment and, exactly when that initial content ends with a semicolon,
walks the following siblings in order, appending each sibling ending in
a semicolon or period, stopping inclusively at the first period and
exclusively at the first sibling ending in neither; every fragment is
stripped of its trailing periods and semicolons (specFieldFragments
states this walk in the claim's words). -/
theorem c3_field_extractor_fragments (label : Str) (paras : List ParaT) (pc : ParaT)
    (pre initial : Str) (rest : List Str)
    (hfind : find_tag_with_label label paras = some pc)
    (hsplit : stripByDelimiter (stripTagH pc.1 (str "p")) label = pre :: initial :: rest) :
    Helper.get_paragraph_content_by_label label paras =
      Except.ok (specFieldFragments initial pc.2) := by
  unfold Helper.get_paragraph_content_by_label
  rw [hfind]
  dsimp only
  rw [hsplit]
  simp only [List.get?_cons_succ, List.get?_cons_zero]
  unfold specFieldFragments
  rw [contentWalkH_eq_specFieldWalk]

/-- Witness for C3 at a concrete label paragraph whose content ends in a
semicolon, followed by a semicolon sibling, a period sibling and a
further sibling. -/
theorem c3_witness :
    Helper.get_paragraph_content_by_label (str "Titel:") c3WParas =
      Except.ok (specFieldFragments (str "foo;")
        [str "<p>bar;</p>", str "<p>baz.</p>", str "<p>x</p>"]) ∧
    specFieldFragments (str "foo;") [str "<p>bar;</p>", str "<p>baz.</p>", str "<p>x</p>"] =
      [str "foo", str "bar", str "baz"] :=
  ⟨c3_field_extractor_fragments (str "Titel:") c3WParas
      (str "<p>Titel: foo;</p>", [str "<p>bar;</p>", str "<p>baz.</p>", str "<p>x</p>"])
      [] (str "foo;") [] (by decide) (by decide),
   by decide⟩

theorem sheetIdOf_eq_spec (label : Str) :
    Helper.sheetIdOf label = specNormalizedLabel label := rfl

theorem complexIdOf_eq_spec (label : Str) :
    Helper.complexIdOf (Helper.sheetIdOf label) = specComplexId label := rfl

/-- C6: for a content-item paragraph matched by the sketch convention
(a strong tag not at the start of the stripped content, text starting
with the sigle M or M*), a label containing a slash forces the link
target's sheet id to the fixed row-table sentinel SkRT; without a slash
the sheet id is the label with spaces and dots replaced by underscores
and the asterisk replaced by star, and the complex id is the lowercase
concatenation of the first two underscore-delimited tokens of that
normalized label. -/
theorem c6_item_link_derivation (p : Para) (item : Helper.ContentItem) (label : Str)
    (hok : Helper.get_item p = Except.ok item)
    (hstrong : pyFindTruthy (stripTagH p (str "p")) (str "strong") = true)
    (hM : (pyStartsWith (tagText p) (str "M ") || pyStartsWith (tagText p) (str "M* ")) = true)
    (hlabel : label = pyStrip ((stripByDelimiter (tagText p) (str "(")).headD [])) :
    (containsSub (str "/") label = true →
      item.itemLinkTo = some ⟨specComplexId label, str "SkRT"⟩) ∧
    (containsSub (str "/") label = false →
      item.itemLinkTo = some ⟨specComplexId label, specNormalizedLabel label⟩) := by
  unfold Helper.get_item at hok
  simp only [hstrong, hM, Bool.and_self, if_true] at hok
  rw [← hlabel] at hok
  cases hd : (stripByDelimiter (stripTagH p (str "p")) (str "(")).get? 1 with
  | none =>
    rw [hd] at hok
    simp at hok
  | some d =>
    rw [hd] at hok
    by_cases hs : containsSub (str "/") label = true
    · simp only [hs, if_true, Except.ok.injEq] at hok
      cases hok
      simp [hs, ← complexIdOf_eq_spec]
    · simp only [hs, Bool.false_eq_true, if_false, Except.ok.injEq] at hok
      cases hok
      simp [hs, ← complexIdOf_eq_spec, ← sheetIdOf_eq_spec]

/-- Witness for C6 at a concrete slash label (the row-table case) and a
concrete slash-free label. -/
theorem c6_witness :
    (⟨str "M 286 Sk# / M 287 Sk#", some ⟨str "m286", str "SkRT"⟩,
        str "(Reihentabelle)", []⟩ : Helper.ContentItem).itemLinkTo =
      some ⟨specComplexId (str "M 286 Sk# / M 287 Sk#"), str "SkRT"⟩ ∧
    (⟨str "M 22 Sk1", some ⟨str "m22", str "M_22_Sk1"⟩,
        str "(Skizze)", []⟩ : Helper.ContentItem).itemLinkTo =
      some ⟨specComplexId (str "M 22 Sk1"), specNormalizedLabel (str "M 22 Sk1")⟩ :=
  ⟨(c6_item_link_derivation (str "<p><strong>M 286 Sk# / M 287 Sk#</strong> (Reihentabelle):</p>")
      ⟨str "M 286 Sk# / M 287 Sk#", some ⟨str "m286", str "SkRT"⟩, str "(Reihentabelle)", []⟩
      (str "M 286 Sk# / M 287 Sk#")
      (by decide) (by decide) (by decide) (by decide)).1 (by decide),
   (c6_item_link_derivation (str "<p><strong>M 22 Sk1</strong> (Skizze):</p>")
      ⟨str "M 22 Sk1", some ⟨str "m22", str "M_22_Sk1"⟩, str "(Skizze)", []⟩
      (str "M 22 Sk1")
      (by decide) (by decide) (by decide) (by decide)).2 (by decide)⟩

/-- C5: for a partition whose first paragraph yields a bracket-wrapped
siglum, the assembled source description has the missing flag set, the
siglum with the brackets removed, and the id source_ plus siglum plus
addendum; for an unbracketed siglum no missing flag is present. -/
theorem c5_missing_siglum_id (paras : List ParaT) (sd : Helper.SourceDescription)
    (pc0 : ParaT) (sig add : Str)
    (hok : Helper.create_source_description paras = Except.ok sd)
    (h0 : paras.get? 0 = some pc0)
    (hsig : get_siglum pc0.1 = (sig, add)) :
    (∀ core, sig = '[' :: core ++ [ ']' ] → core ≠ [] →
      sd.missing = some true ∧ sd.siglum = core ∧ sd.id = str "source_" ++ (core ++ add)) ∧
    ((pyStartsWith sig (str "[") && pyEndsWith sig (str "]")) = false →
      sd.missing = none ∧ sd.siglum = sig) := by
  unfold Helper.create_source_description at hok
  rw [h0] at hok
  simp only [pyIndex, except_bind_ok] at hok
  rw [hsig] at hok
  cases hp1 : paras.get? 1 with
  | none => rw [hp1] at hok; simp [pyIndex, except_bind_error] at hok
  | some p1 =>
  rw [hp1] at hok
  simp only [pyIndex, except_bind_ok] at hok
  cases hp2 : paras.get? 2 with
  | none => rw [hp2] at hok; simp [pyIndex, except_bind_error] at hok
  | some p2 =>
  rw [hp2] at hok
  simp only [pyIndex, except_bind_ok] at hok
  cases hdesc : Helper.get_description paras with
  | error e => rw [hdesc] at hok; simp [except_bind_error] at hok
  | ok desc =>
  rw [hdesc] at hok
  simp only [except_bind_ok, pure, Except.pure, Except.ok.injEq] at hok
  constructor
  · intro core hcore hne
    have hbr : (pyStartsWith sig (str "[") && pyEndsWith sig (str "]")) = true := by
      subst hcore
      apply Bool.and_eq_true_iff.mpr
      constructor
      · simp [pyStartsWith, str, List.isPrefixOf]
      · apply List.isSuffixOf_iff_suffix.mpr
        exact ⟨'[' :: core, by simp [str]⟩
    rw [hbr] at hok
    simp only [if_true] at hok
    have hsiglum : ((sig.drop 1).dropLast) = core := by
      subst hcore
      simp [List.dropLast_concat]
    have hne2 : ((sig.drop 1).dropLast ++ add).isEmpty = false := by
      rw [hsiglum]
      cases core with
      | nil => exact absurd rfl hne
      | cons a l => simp [List.isEmpty]
    rw [hne2] at hok
    simp only [Bool.false_eq_true, if_false] at hok
    cases hok
    exact ⟨rfl, hsiglum, by rw [hsiglum]⟩
  · intro hbr
    rw [hbr] at hok
    simp only [Bool.false_eq_true, if_false] at hok
    cases hok
    exact ⟨rfl, rfl⟩

/-- Witness for C5 at a concrete bracketed partition (siglum [A]) and a
concrete unbracketed partition (siglum A). -/
theorem c5_witness :
    (∃ sd : Helper.SourceDescription, Helper.create_source_description c5WParasBr = Except.ok sd ∧
      sd.missing = some true ∧ sd.siglum = str "A" ∧ sd.id = str "source_A") ∧
    (∃ sd : Helper.SourceDescription, Helper.create_source_description c5WParasPl = Except.ok sd ∧
      sd.missing = none ∧ sd.siglum = str "A") := by
  constructor
  · cases h : Helper.create_source_description c5WParasBr with
    | error e =>
      have hok2 : isOkE (Helper.create_source_description c5WParasBr) = true := by decide
      rw [h] at hok2
      simp [isOkE] at hok2
    | ok sd =>
      refine ⟨sd, rfl, ?_⟩
      have hres := (c5_missing_siglum_id c5WParasBr sd
        (str "<p><strong>[A]</strong></p>",
          [str "<p>Skizzen</p>", str "<p>CH-Bps</p>", str "<p>1 Blatt.</p>"])
        (str "[A]") [] h (by decide) (by decide)).1 (str "A") (by decide) (by decide)
      exact ⟨hres.1, hres.2.1, hres.2.2.trans (by decide)⟩
  · cases h : Helper.create_source_description c5WParasPl with
    | error e =>
      have hok2 : isOkE (Helper.create_source_description c5WParasPl) = true := by decide
      rw [h] at hok2
      simp [isOkE] at hok2
    | ok sd =>
      refine ⟨sd, rfl, ?_⟩
      exact (c5_missing_siglum_id c5WParasPl sd
        (str "<p><strong>A</strong></p>",
          [str "<p>Skizzen</p>", str "<p>CH-Bps</p>", str "<p>1 Blatt.</p>"])
        (str "A") [] h (by decide) (by decide)).2 (by decide)

theorem sysBeforeFolio_precond (sibs : List Para) :
    sysBeforeFolio sibs = false →
    ∀ pre p post, sibs = pre ++ p :: post → isSystemOnly p = true →
      ∃ q ∈ pre, hasFolioMarker q = true := by
  induction sibs with
  | nil =>
    intro _ pre p post habs _
    exact absurd habs (by cases pre <;> simp)
  | cons x rest ih =>
    intro h pre p post heq hsys
    simp only [sysBeforeFolio, Bool.or_eq_false_iff, Bool.and_eq_false_iff,
      Bool.not_eq_false] at h
    obtain ⟨hx, hor⟩ := h
    cases pre with
    | nil =>
      rw [List.nil_append] at heq
      injection heq with h1 h2
      subst h1
      exact absurd hsys (by simp [hx])
    | cons a pre2 =>
      rw [List.cons_append] at heq
      injection heq with h1 h2
      subst h1
      cases hor with
      | inl hf => exact ⟨x, by simp, by simpa using hf⟩
      | inr hrest =>
        rcases ih hrest pre2 p post h2 hsys with ⟨q, hq1, hq2⟩
        exact ⟨q, by simp [hq1], hq2⟩

theorem precond_sysBeforeFolio (sibs : List Para) :
    (∀ pre p post, sibs = pre ++ p :: post → isSystemOnly p = true →
      ∃ q ∈ pre, hasFolioMarker q = true) →
    sysBeforeFolio sibs = false := by
  induction sibs with
  | nil => intro _; rfl
  | cons x rest ih =>
    intro h
    have hx : isSystemOnly x = false := by
      by_cases hx1 : isSystemOnly x = true
      · rcases h [] x rest rfl hx1 with ⟨q, hq, _⟩
        exact absurd hq (by simp)
      · exact Bool.eq_false_iff.mpr hx1
    by_cases hf : hasFolioMarker x = true
    · simp [sysBeforeFolio, hx, hf]
    · have hrest : sysBeforeFolio rest = false := by
        apply ih
        intro pre2 p post heq hsys
        rcases h (x :: pre2) p post (by rw [heq]; rfl) hsys with ⟨q, hq1, hq2⟩
        rcases List.mem_cons.mp hq1 with hqx | hqp
        · exact absurd hq2 (by rw [hqx]; exact hf)
        · exact ⟨q, hqp, hq2⟩
      simp [sysBeforeFolio, hx, hf, hrest]

theorem getFoliosGo_no_unbound (sibs : List Para) : ∀ (done : List Folio) (cur : Option Folio),
    (cur.isSome = true ∨ sysBeforeFolio sibs = false) →
    Helper.getFoliosGo sibs done cur ≠ Except.error PyErr.unboundLocal := by
  induction sibs with
  | nil =>
    intro done cur _
    simp [Helper.getFoliosGo]
  | cons p rest ih =>
    intro done cur hinv
    unfold Helper.getFoliosGo
    by_cases hfp : (searchBlAny (tagText p) || containsSub (str "S.") (tagText p)) = true
    · simp only [hfp, if_true]
      by_cases hsys : paraFindsString (str "System") p = true
      · simp only [hsys, if_true]
        exact ih _ _ (Or.inl rfl)
      · simp only [hsys, Bool.false_eq_true, if_false]
        split
        · simp
        · exact ih _ _ (Or.inl rfl)
    · simp only [hfp, Bool.false_eq_true, if_false]
      have hfm : hasFolioMarker p = false := by
        unfold hasFolioMarker
        exact Bool.eq_false_iff.mpr hfp
      by_cases hsys : paraFindsString (str "System") p = true
      · simp only [hsys, if_true]
        have hcur : cur.isSome = true := by
          cases hinv with
          | inl h1 => exact h1
          | inr h2 =>
            exfalso
            simp only [sysBeforeFolio, Bool.or_eq_false_iff] at h2
            have : isSystemOnly p = false := h2.1
            rw [isSystemOnly, hsys, hfm] at this
            simp at this
        cases cur with
        | none => simp at hcur
        | some f => exact ih _ _ (Or.inl rfl)
      · simp only [hsys, Bool.false_eq_true, if_false]
        apply ih
        cases hinv with
        | inl h1 => exact Or.inl h1
        | inr h2 =>
          apply Or.inr
          simp only [sysBeforeFolio, Bool.or_eq_false_iff, Bool.and_eq_false_iff,
            Bool.not_eq_false] at h2
          rcases h2.2 with hmk | hr
          · have hmk2 : hasFolioMarker p = true := by simpa using hmk
            rw [hmk2] at hfm
            cases hfm
          · exact hr

/-- C8 (amended): when every paragraph holding the System marker but no
folio pattern and no page marker is preceded by a paragraph holding a
folio or page marker, _get_folios never raises the unbound-local error:
the branch appending a system group to the current folio is reached only
after a folio has been created.  (The original claim of completing
without any error fails: see the counterexample, where a folio paragraph
without a tab-separated description raises an IndexError.) -/
theorem c8_no_unbound_folio (sibs : List Para)
    (h : ∀ pre p post, sibs = pre ++ p :: post → isSystemOnly p = true →
      ∃ q ∈ pre, hasFolioMarker q = true) :
    Helper.get_folios sibs ≠ Except.error PyErr.unboundLocal :=
  getFoliosGo_no_unbound sibs [] none (Or.inr (precond_sysBeforeFolio sibs h))

/-- Counterexample for C8 as stated: the single folio paragraph without
a tab satisfies the claim's precondition (it contains a folio marker, so
it is not a system-only paragraph) yet _get_folios raises an IndexError
reading the missing description field, so it does not complete without
error. -/
theorem c8_counterexample :
    (∀ pre p post, c8CexSibs = pre ++ p :: post → isSystemOnly p = true →
      ∃ q ∈ pre, hasFolioMarker q = true) ∧
    Helper.get_folios c8CexSibs = Except.error PyErr.indexError :=
  ⟨sysBeforeFolio_precond c8CexSibs (by decide), by decide⟩

/-- Witness for C8 at a concrete folio line followed by a system-only
line. -/
theorem c8_witness : Helper.get_folios c8WSibs ≠ Except.error PyErr.unboundLocal :=
  c8_no_unbound_folio c8WSibs (sysBeforeFolio_precond c8WSibs (by decide))

theorem addSourceById_dup (acc : List Utils.SourceDescription) (sd : Utils.SourceDescription)
    (h : ∃ s ∈ acc, s.id = sd.id) : Utils.addSourceById acc sd = acc := by
  unfold Utils.addSourceById
  have hany : acc.any (fun s => s.id == sd.id) = true := by
    rcases h with ⟨s, hs1, hs2⟩
    exact List.any_eq_true.mpr ⟨s, hs1, by simp [hs2]⟩
  simp [hany]

theorem addSourceById_nodup (acc : List Utils.SourceDescription) (sd : Utils.SourceDescription)
    (h : (acc.map (fun s => s.id)).Nodup) :
    ((Utils.addSourceById acc sd).map (fun s => s.id)).Nodup := by
  unfold Utils.addSourceById
  by_cases hany : acc.any (fun s => s.id == sd.id) = true
  · simp only [hany, if_true]
    exact h
  · simp only [hany, Bool.false_eq_true, if_false, List.map_append]
    apply List.Nodup.append h (List.nodup_singleton _)
    intro a ha hb
    rcases List.mem_map.mp ha with ⟨s, hs1, hs2⟩
    have hbv : a = sd.id := by simpa using hb
    exact hany (List.any_eq_true.mpr ⟨s, hs1, by simp [hs2, hbv]⟩)

theorem cslFold_nodup (tails : List ParaT) (ranges : List (Nat × Nat)) :
    ∀ (acc out : List Utils.SourceDescription),
      ranges.foldlM (Utils.cslStep tails) acc = Except.ok out →
      (acc.map (fun s => s.id)).Nodup → (out.map (fun s => s.id)).Nodup := by
  induction ranges with
  | nil =>
    intro acc out h hn
    simp only [List.foldlM_nil, pure, Except.pure, Except.ok.injEq] at h
    rw [← h]
    exact hn
  | cons r rs ih =>
    intro acc out h hn
    rw [List.foldlM_cons] at h
    unfold Utils.cslStep at h
    by_cases hr : r.1 < r.2
    · simp only [hr, if_true] at h
      cases hasm : Utils.asmRange tails r with
      | error e =>
        rw [hasm] at h
        simp [except_bind_error] at h
      | ok sd =>
        rw [hasm] at h
        simp only [except_bind_ok, pure, Except.pure] at h
        exact ih _ out h (addSourceById_nodup acc sd hn)
    · simp only [hr, if_false] at h
      simp only [pure, Except.pure, except_bind_ok] at h
      exact ih _ out h hn

/-- C1: every record identifier appears at most once in the sources list
produced by create_source_list, and a newly assembled description whose
id already occurs in the list is skipped, leaving the existing record
and the rest of the list unchanged. -/
theorem c1_create_source_list_ids_unique :
    (∀ (doc : List Para) (sl : Utils.SourceList),
      Utils.create_source_list doc = Except.ok sl →
      (sl.sources.map (fun s => s.id)).Nodup) ∧
    (∀ (acc : List Utils.SourceDescription) (sd : Utils.SourceDescription),
      (∃ s ∈ acc, s.id = sd.id) → Utils.addSourceById acc sd = acc) := by
  constructor
  · intro doc sl h
    unfold Utils.create_source_list at h
    cases hf : (Utils.sourceRanges (Utils.find_siglum_indices doc) doc.length).foldlM
        (Utils.cslStep (withTails doc)) [] with
    | error e =>
      rw [hf] at h
      simp [except_bind_error] at h
    | ok sources =>
      rw [hf] at h
      simp only [except_bind_ok, pure, Except.pure, Except.ok.injEq] at h
      rw [← h]
      exact cslFold_nodup (withTails doc) _ [] sources hf (by simp)
  · exact addSourceById_dup

/-- Witness for C1: a concrete two-siglum document whose output ids are
distinct, and a concrete duplicate-id skip step. -/
theorem c1_witness :
    (∃ sl : Utils.SourceList, Utils.create_source_list wDoc = Except.ok sl ∧
      (sl.sources.map (fun s => s.id)).Nodup) ∧
    Utils.addSourceById [wSd1] wSd2 = [wSd1] := by
  constructor
  · cases h : Utils.create_source_list wDoc with
    | error e =>
      have hok2 : isOkE (Utils.create_source_list wDoc) = true := by decide
      rw [h] at hok2
      simp [isOkE] at hok2
    | ok sl =>
      exact ⟨sl, rfl, c1_create_source_list_ids_unique.1 wDoc sl h⟩
  · exact c1_create_source_list_ids_unique.2 [wSd1] wSd2 ⟨wSd1, by simp, by decide⟩

theorem sourceRanges_eq_spec (idxs : List Nat) (docLen : Nat) :
    Utils.sourceRanges idxs docLen = specClaimRanges idxs docLen := by
  induction idxs with
  | nil => rfl
  | cons a rest ih =>
    cases rest with
    | nil => rfl
    | cons b rest2 =>
      simp only [Utils.sourceRanges, specClaimRanges, List.drop, List.cons_append,
        List.zip_cons_cons, List.head?, Option.getD] at ih ⊢
      rw [ih]

theorem sourceRanges_length (idxs : List Nat) (docLen : Nat) :
    (Utils.sourceRanges idxs docLen).length = idxs.length := by
  induction idxs with
  | nil => rfl
  | cons a rest ih => simp [Utils.sourceRanges, ih]

theorem siglumIndicesFrom_bounds (l : List Para) : ∀ (n x : Nat),
    x ∈ Utils.siglumIndicesFrom n l → n ≤ x ∧ x < n + l.length := by
  induction l with
  | nil => intro n x hx; simp [Utils.siglumIndicesFrom] at hx
  | cons p rest ih =>
    intro n x hx
    unfold Utils.siglumIndicesFrom at hx
    by_cases hp : Utils.isSiglumPara p = true
    · simp only [hp, if_true, List.mem_cons] at hx
      cases hx with
      | inl h =>
        subst h
        simp only [List.length_cons]
        omega
      | inr h =>
        rcases ih (n + 1) x h with ⟨h1, h2⟩
        simp only [List.length_cons]
        omega
    · simp only [hp, Bool.false_eq_true, if_false] at hx
      rcases ih (n + 1) x hx with ⟨h1, h2⟩
      simp only [List.length_cons]
      omega

theorem siglumIndicesFrom_chain (l : List Para) : ∀ n,
    List.Chain' (· < ·) (Utils.siglumIndicesFrom n l) := by
  induction l with
  | nil => intro n; simp [Utils.siglumIndicesFrom]
  | cons p rest ih =>
    intro n
    unfold Utils.siglumIndicesFrom
    by_cases hp : Utils.isSiglumPara p = true
    · simp only [hp, if_true]
      apply List.chain'_cons'.mpr
      refine ⟨?_, ih (n + 1)⟩
      intro b hb
      have hmem : b ∈ Utils.siglumIndicesFrom (n + 1) rest := List.mem_of_mem_head? hb
      have := siglumIndicesFrom_bounds rest (n + 1) b hmem
      omega
    · simp only [hp, Bool.false_eq_true, if_false]
      exact ih (n + 1)

theorem sourceRanges_lt (idxs : List Nat) (docLen : Nat) :
    List.Chain' (· < ·) idxs → (∀ x ∈ idxs, x < docLen) →
    ∀ r ∈ Utils.sourceRanges idxs docLen, r.1 < r.2 := by
  induction idxs with
  | nil => intro _ _ r hr; simp [Utils.sourceRanges] at hr
  | cons a rest ih =>
    intro hch hbd r hr
    unfold Utils.sourceRanges at hr
    rcases List.mem_cons.mp hr with h1 | h2
    · subst h1
      cases rest with
      | nil => simpa using hbd a (by simp)
      | cons b rest2 =>
        simp only [List.head?, Option.getD]
        exact ((List.chain'_cons'.mp hch).1 b (by simp [List.head?]))
    · exact ih (List.chain'_cons'.mp hch).2 (fun x hx => hbd x (by simp [hx])) r h2

theorem mapM_ok_length (f : β → Except PyErr γ) (l : List β) : ∀ out : List γ,
    l.mapM f = Except.ok out → out.length = l.length := by
  induction l with
  | nil =>
    intro out h
    simp only [List.mapM_nil, pure, Except.pure, Except.ok.injEq] at h
    rw [← h]
    rfl
  | cons b bs ih =>
    intro out h
    rw [List.mapM_cons] at h
    cases hf : f b with
    | error e => rw [hf] at h; simp [except_bind_error] at h
    | ok c =>
      rw [hf] at h
      simp only [except_bind_ok] at h
      cases hrest : bs.mapM f with
      | error e => rw [hrest] at h; simp [except_bind_error] at h
      | ok cs =>
        rw [hrest] at h
        simp only [except_bind_ok, pure, Except.pure, Except.ok.injEq] at h
        rw [← h]
        simp [ih cs hrest]

theorem cslFold_of_mapM (tails : List ParaT) (ranges : List (Nat × Nat)) :
    ∀ (acc sds : List Utils.SourceDescription),
      (∀ r ∈ ranges, r.1 < r.2) →
      ranges.mapM (Utils.asmRange tails) = Except.ok sds →
      ranges.foldlM (Utils.cslStep tails) acc = Except.ok (sds.foldl Utils.addSourceById acc) := by
  induction ranges with
  | nil =>
    intro acc sds _ hm
    simp only [List.mapM_nil, pure, Except.pure, Except.ok.injEq] at hm
    rw [← hm]
    rfl
  | cons r rs ih =>
    intro acc sds hlt hm
    rw [List.mapM_cons] at hm
    cases ha : Utils.asmRange tails r with
    | error e => rw [ha] at hm; simp [except_bind_error] at hm
    | ok sd =>
      rw [ha] at hm
      simp only [except_bind_ok] at hm
      cases hrest : rs.mapM (Utils.asmRange tails) with
      | error e => rw [hrest] at hm; simp [except_bind_error] at hm
      | ok sds2 =>
        rw [hrest] at hm
        simp only [except_bind_ok, pure, Except.pure, Except.ok.injEq] at hm
        rw [← hm]
        rw [List.foldlM_cons]
        unfold Utils.cslStep
        have hr := hlt r (by simp)
        simp only [hr, if_true, ha, except_bind_ok, pure, Except.pure]
        rw [List.foldl_cons]
        exact ih (Utils.addSourceById acc sd) sds2 (fun x hx => hlt x (by simp [hx])) hrest

theorem foldl_add_nodup (sds : List Utils.SourceDescription) :
    ∀ acc, ((acc ++ sds).map (fun s => s.id)).Nodup →
    sds.foldl Utils.addSourceById acc = acc ++ sds := by
  induction sds with
  | nil => intro acc _; simp
  | cons sd rest ih =>
    intro acc hn
    rw [List.foldl_cons]
    have hnotin : ¬∃ s ∈ acc, s.id = sd.id := by
      rintro ⟨s, hs1, hs2⟩
      rw [List.map_append] at hn
      rcases List.nodup_append.mp hn with ⟨_, _, hdisj⟩
      exact hdisj (List.mem_map.mpr ⟨s, hs1, hs2⟩) (by simp)
    have hadd : Utils.addSourceById acc sd = acc ++ [sd] := by
      unfold Utils.addSourceById
      have hany : acc.any (fun s => s.id == sd.id) = false := by
        by_cases h : acc.any (fun s => s.id == sd.id) = true
        · rcases List.any_eq_true.mp h with ⟨s, hs1, hs2⟩
          exact absurd ⟨s, hs1, by simpa using hs2⟩ hnotin
        · exact Bool.eq_false_iff.mpr h
      simp [hany]
    rw [hadd]
    calc rest.foldl Utils.addSourceById (acc ++ [sd])
        = (acc ++ [sd]) ++ rest := ih (acc ++ [sd]) (by simpa using hn)
      _ = acc ++ sd :: rest := by simp

/-- C2 (amended): when the assembly of every siglum range succeeds (in
particular every range is long enough for the fixed-position fields) and
the assembled ids are pairwise distinct, create_source_list returns
exactly one record per detected siglum index, in document order, and the
processed ranges are the contiguous ranges of the claim: each siglum
index up to the next one, the last up to the end of the document.  (The
original unconditional claim fails: a range shorter than four paragraphs
raises an IndexError, see the counterexample.) -/
theorem c2_ranges_and_count (doc : List Para) (sds : List Utils.SourceDescription)
    (hasm : (Utils.sourceRanges (Utils.find_siglum_indices doc) doc.length).mapM
        (Utils.asmRange (withTails doc)) = Except.ok sds)
    (hn : (sds.map (fun s => s.id)).Nodup) :
    Utils.create_source_list doc = Except.ok ⟨sds⟩ ∧
    sds.length = (Utils.find_siglum_indices doc).length ∧
    Utils.sourceRanges (Utils.find_siglum_indices doc) doc.length =
      specClaimRanges (Utils.find_siglum_indices doc) doc.length := by
  have hlt : ∀ r ∈ Utils.sourceRanges (Utils.find_siglum_indices doc) doc.length,
      r.1 < r.2 := by
    apply sourceRanges_lt
    · exact siglumIndicesFrom_chain doc 0
    · intro x hx
      have := siglumIndicesFrom_bounds doc 0 x hx
      omega
  refine ⟨?_, ?_, sourceRanges_eq_spec _ _⟩
  · unfold Utils.create_source_list
    rw [cslFold_of_mapM (withTails doc) _ [] sds hlt hasm]
    rw [foldl_add_nodup sds [] (by simpa using hn)]
    rfl
  · rw [mapM_ok_length _ _ sds hasm]
    exact sourceRanges_length _ _

/-- Counterexample for C2 as stated: a document of two adjacent siglum
paragraphs has two detected siglum indices, but the first range holds a
single paragraph, so assembling it raises an IndexError and no record
list is produced (the claim predicts two records). -/
theorem c2_counterexample :
    Utils.find_siglum_indices c2CexDoc = [0, 1] ∧
    Utils.create_source_list c2CexDoc = Except.error PyErr.indexError := by
  decide

/-- Witness for C2 at a concrete two-siglum document on which every
range assembles and the ids are distinct. -/
theorem c2_witness :
    ∃ sds : List Utils.SourceDescription,
      (Utils.sourceRanges (Utils.find_siglum_indices wDoc) wDoc.length).mapM
          (Utils.asmRange (withTails wDoc)) = Except.ok sds ∧
      Utils.create_source_list wDoc = Except.ok ⟨sds⟩ ∧
      sds.length = (Utils.find_siglum_indices wDoc).length := by
  cases h : (Utils.sourceRanges (Utils.find_siglum_indices wDoc) wDoc.length).mapM
      (Utils.asmRange (withTails wDoc)) with
  | error e =>
    have hok2 : isOkE ((Utils.sourceRanges (Utils.find_siglum_indices wDoc) wDoc.length).mapM
        (Utils.asmRange (withTails wDoc))) = true := by decide
    rw [h] at hok2
    simp [isOkE] at hok2
  | ok sds =>
    have hids : Except.map (fun l => l.map (fun s => s.id))
        ((Utils.sourceRanges (Utils.find_siglum_indices wDoc) wDoc.length).mapM
          (Utils.asmRange (withTails wDoc))) =
        Except.ok [str "source_A", str "source_B"] := by decide
    rw [h] at hids
    simp only [Except.map] at hids
    have hids2 : sds.map (fun s => s.id) = [str "source_A", str "source_B"] := by
      injection hids
    have hn : (sds.map (fun s => s.id)).Nodup := by
      rw [hids2]
      decide
    rcases c2_ranges_and_count wDoc sds h hn with ⟨h1, h2, _⟩
    exact ⟨sds, rfl, h1, h2⟩
